import Mathlib

/-!
# Verification of the PriceMaps core algorithms

Shallow embedding of the computational core of the PriceMaps repository:

* the dynamic quintile/local-statistics engine (`calculateQuintiles`,
  `updateLocalQuintiles`) embedded in the generated client-side script of
  `scripts/create_sophisticated_map.py`;
* the year-over-year comparison-period resolver, duplicated in
  `scripts/create_yoy_map.py` and `scripts/create_sophisticated_map.py`;
* the percent-change computation and the outlier filters of the three map
  scripts (`create_yoy_map.py`, `create_sophisticated_map.py`,
  `create_price_levels.py`);
* the ray-casting point-in-polygon test (`isPointInPolygon`) and the
  boundary selection (`getZipsInBoundary`).

Modelling conventions:

* Numeric values (prices, percent changes, coordinates) are embedded as `ℚ`.
  IEEE doubles are idealised as exact rationals, except that division by
  zero is modelled explicitly (`FloatVal` with `posInf`/`negInf`/`nan`
  values), because the pandas pipeline relies on `inf`/`NaN` comparison
  semantics to drop zero-prior rows.
* `Math.floor(sorted.length * 0.2)` (and 0.4/0.6/0.8) is embedded as natural
  truncating division `n / 5` (and `2*n/5`, ...): for every array length
  representable in JavaScript the double computation agrees with the exact
  one, since the rounding error of `n * 0.2` is far smaller than the
  distance of the exact product from the nearest unlucky integer boundary.
* JavaScript `Array.prototype.sort` with comparator `(a, b) => a - b` and
  Python `list.sort(key=...)` are stable sorts; both are embedded as
  `List.insertionSort`, which is stable.
* `datetime.strptime(col, "%Y-%m-%d")` inside `try/except` is abstracted by
  giving each column an optional parsed `(year, month)` value; a `none`
  parse corresponds to the exception branch, which skips the column.
* `pandas.DataFrame` rows are embedded as lists of records; `dropna`,
  column arithmetic and boolean-mask filtering become `filterMap`, `map`
  and `filter` on those lists.
-/

namespace PriceMaps

/-! ## Floating-point percent-change values

`(current - prior) / prior * 100` in pandas produces `inf`, `-inf` or `NaN`
when `prior = 0`; those values then fail every ordinary comparison in the
outlier mask and are dropped.  `FloatVal` records exactly this distinction.
-/

/-- Result of a pandas float computation: an exact rational, or one of the
non-finite values produced by division by zero. -/
inductive FloatVal where
  | val (q : ℚ)
  | posInf
  | negInf
  | nan
  deriving DecidableEq, Repr

/-- One row of the Zillow table restricted to the two columns used by the
year-over-year scripts: value at the latest date and at the resolved
year-ago date.  `none` is a missing (NaN) cell, removed by `dropna`. -/
structure Region where
  regionName : String
  current : Option ℚ
  prior : Option ℚ
  deriving DecidableEq, Repr

/-- Embeds the expression `((current - prior) / prior) * 100` with IEEE
division-by-zero semantics: the `price_change_pct` column of
`create_sophisticated_map.py` (line 67) and the `yoy_change` column of
`create_yoy_map.py` (lines 88-89) compute this same expression. -/
def price_change_pct (current prior : ℚ) : FloatVal :=
  if prior = 0 then
    if current - prior > 0 then .posInf
    else if current - prior < 0 then .negInf
    else .nan
  else .val ((current - prior) / prior * 100)

/-- Embeds `dropna(subset=[latest_date, year_ago_date])`: keep only rows
where both cells are present, exposing the two values. -/
def dropna (rows : List Region) : List (Region × ℚ × ℚ) :=
  rows.filterMap fun r =>
    match r.current, r.prior with
    | some c, some p => some (r, c, p)
    | _, _ => none

/-- Outlier mask of `create_yoy_map.py` line 92:
`(yoy_change > -50) & (yoy_change < 100)`.  Non-finite values fail both
comparisons. -/
def yoyKeep : FloatVal → Bool
  | .val q => decide (-50 < q) && decide (q < 100)
  | _ => false

/-- Outlier mask of `create_sophisticated_map.py` line 69:
`(price_change_pct >= -50) & (price_change_pct <= 100)`. -/
def sophKeep : FloatVal → Bool
  | .val q => decide (-50 ≤ q) && decide (q ≤ 100)
  | _ => false

/-- The `df_yoy` pipeline of `create_yoy_map.py` (lines 83-92): drop rows
with a missing endpoint, compute `yoy_change`, filter the outlier band. -/
def yoyTable (rows : List Region) : List (Region × FloatVal) :=
  ((dropna rows).map fun x => (x.1, price_change_pct x.2.1 x.2.2)).filter
    fun x => yoyKeep x.2

/-- The `df_analysis` pipeline of `create_sophisticated_map.py`
(lines 65-69): same computation with an inclusive outlier band. -/
def sophTable (rows : List Region) : List (Region × FloatVal) :=
  ((dropna rows).map fun x => (x.1, price_change_pct x.2.1 x.2.2)).filter
    fun x => sophKeep x.2

/-- Outlier mask of `create_price_levels.py` line 51:
`(price_level >= 10000) & (price_level <= 10000000)`. -/
def priceKeep (q : ℚ) : Bool := decide (10000 ≤ q) && decide (q ≤ 10000000)

/-- The `df_analysis` pipeline of `create_price_levels.py` (lines 45-51):
drop rows missing the latest value, keep the plausible price band. -/
def priceTable (rows : List Region) : List (Region × ℚ) :=
  (rows.filterMap fun r => r.current.map fun c => (r, c)).filter
    fun x => priceKeep x.2

/-! ## The dynamic quintile engine

`calculateQuintiles` from the generated client script of
`create_sophisticated_map.py` (lines 545-567). -/

/-- Body of `calculateQuintiles` applied to the already-sorted copy of the
input (`const sorted = [...values].sort((a, b) => a - b)`). -/
def quintilesFromSorted (sorted : List ℚ) : List ℚ :=
  if sorted.length < 5 then
    let min := sorted.getD 0 0
    let max := sorted.getD (sorted.length - 1) 0
    let range := max - min
    [min + range * (2/10), min + range * (4/10),
     min + range * (6/10), min + range * (8/10)]
  else
    [sorted.getD (sorted.length / 5) 0,
     sorted.getD (2 * sorted.length / 5) 0,
     sorted.getD (3 * sorted.length / 5) 0,
     sorted.getD (4 * sorted.length / 5) 0]

/-- Embeds `calculateQuintiles(values)`: sort a copy ascending, then either take
rank-based breakpoints (n ≥ 5) or equal-width buckets from min to max
(n < 5). -/
def calculateQuintiles (values : List ℚ) : List ℚ :=
  quintilesFromSorted (List.insertionSort (· ≤ ·) values)

/-- Embeds `updateLocalQuintiles` (lines 576-595), abstracted to its data flow:
given the cached global breakpoints and the percent-change values of the
currently visible regions, produce the breakpoints used for colouring
together with the `isSmallSample` flag passed to `updateLegend`.  Fewer
than two visible regions fall back to the global breakpoints with the flag
unset (the `updateLegend` call there uses the default `false`). -/
def updateLocalQuintiles (globalQuintiles : List ℚ) (prices : List ℚ) :
    List ℚ × Bool :=
  if prices.length < 2 then (globalQuintiles, false)
  else (calculateQuintiles prices, decide (prices.length < 5))

/-! ## The comparison-period resolver

The year-ago column search appears verbatim in two scripts:
`create_yoy_map.py` lines 44-78 and `create_sophisticated_map.py` lines
27-60.  Each script gets its own embedding (in its own namespace) so the
refinement claim compares two independent definitions. -/

/-- One entry of `date_columns`: the column header string together with the
result of `datetime.strptime(col, "%Y-%m-%d")` — `none` when parsing
raises, which the `try/except` turns into skipping the column. -/
structure MonthCol where
  name : String
  date : Option (Int × Int)
  deriving DecidableEq, Repr

/-- Embeds `col_date.year == target_year and col_date.month == target_month`
for a column that parses; an unparseable column never matches. -/
def isYearAgoExact (ty tm : Int) (c : MonthCol) : Bool :=
  match c.date with
  | some (y, m) => y == ty && m == tm
  | none => false

namespace CreateYoyMap

/-- First loop of the resolver (`create_yoy_map.py` lines 51-59): scan
`date_columns` in order and stop at the first exact (year, month) match. -/
def findYearAgoExact (cols : List MonthCol) (ty tm : Int) : Option MonthCol :=
  cols.find? (PriceMaps.isYearAgoExact ty tm)

/-- Fallback candidate collection (lines 63-70): every column of the target
year, paired with `abs(col_date.month - target_month)`. -/
def yearAgoCandidates (cols : List MonthCol) (ty tm : Int) :
    List (MonthCol × ℕ) :=
  cols.filterMap fun c =>
    match c.date with
    | some (y, m) => if y == ty then some (c, (m - tm).natAbs) else none
    | none => none

/-- The whole resolver (lines 51-78): exact match first, otherwise sort the
target-year candidates by month distance (Python `list.sort` is stable) and
take the first; `none` when the target year is absent, which the script
reports as a fatal "Could not find year-ago data" error. -/
def resolveYearAgo (cols : List MonthCol) (ty tm : Int) : Option MonthCol :=
  match findYearAgoExact cols ty tm with
  | some c => some c
  | none =>
    match List.insertionSort (fun a b => a.2 ≤ b.2)
        (yearAgoCandidates cols ty tm) with
    | [] => none
    | x :: _ => some x.1

/-- Resolver driven from the column list itself (lines 42-48): the target
is the last date column, `target_year = latest.year - 1`,
`target_month = latest.month`.  An unparseable latest column makes
`strptime` raise outside any `try`, aborting the script: modelled as
`none`. -/
def yearAgoFromColumns (cols : List MonthCol) : Option MonthCol :=
  match cols.getLast? with
  | none => none
  | some latest =>
    match latest.date with
    | none => none
    | some (y, m) => resolveYearAgo cols (y - 1) m

end CreateYoyMap

namespace CreateSophisticatedMap

/-- First loop of the resolver (`create_sophisticated_map.py` lines
33-41). -/
def findYearAgoExact (cols : List MonthCol) (ty tm : Int) : Option MonthCol :=
  cols.find? (PriceMaps.isYearAgoExact ty tm)

/-- Fallback candidate collection (lines 45-52). -/
def yearAgoCandidates (cols : List MonthCol) (ty tm : Int) :
    List (MonthCol × ℕ) :=
  cols.filterMap fun c =>
    match c.date with
    | some (y, m) => if y == ty then some (c, (m - tm).natAbs) else none
    | none => none

/-- The whole resolver (lines 33-60); failure makes the script `exit(1)`
with "Could not find year-ago data". -/
def resolveYearAgo (cols : List MonthCol) (ty tm : Int) : Option MonthCol :=
  match findYearAgoExact cols ty tm with
  | some c => some c
  | none =>
    match List.insertionSort (fun a b => a.2 ≤ b.2)
        (yearAgoCandidates cols ty tm) with
    | [] => none
    | x :: _ => some x.1

/-- Resolver driven from the column list (lines 24-30). -/
def yearAgoFromColumns (cols : List MonthCol) : Option MonthCol :=
  match cols.getLast? with
  | none => none
  | some latest =>
    match latest.date with
    | none => none
    | some (y, m) => resolveYearAgo cols (y - 1) m

end CreateSophisticatedMap

/-! ## Point-in-polygon and boundary selection

`isPointInPolygon` and `getZipsInBoundary` from the generated client script
of `create_sophisticated_map.py` (lines 700-740).  A point is a
`(lat, lng)` pair of rationals. -/

/-- The crossing test for one polygon edge `(vi, vj)` against point `p`:
`((yi > p.lng) !== (yj > p.lng)) && (p.lat < (xj-xi)*(p.lng-yi)/(yj-yi)+xi)`.
When the first conjunct holds, `yi ≠ yj`, so the division is by a nonzero
value exactly when it influences the result. -/
def edgeCross (p vi vj : ℚ × ℚ) : Bool :=
  (decide (vi.2 > p.2) != decide (vj.2 > p.2)) &&
    decide (p.1 < (vj.1 - vi.1) * (p.2 - vi.2) / (vj.2 - vi.2) + vi.1)

/-- Embeds `isPointInPolygon(point, polygon)` (lines 726-740): the even-odd
ray-casting loop `for (i = 0, j = n - 1; i < n; j = i++)`, flipping
`inside` on every crossing edge. -/
def isPointInPolygon (p : ℚ × ℚ) (poly : List (ℚ × ℚ)) : Bool :=
  (List.range poly.length).foldl
    (fun inside i =>
      let vi := poly.getD i (0, 0)
      let vj := poly.getD (if i = 0 then poly.length - 1 else i - 1) (0, 0)
      if edgeCross p vi vj then !inside else inside)
    false

/-- Axis-aligned bounding box of the polygon vertices, as the Leaflet call
`layer.getBounds()` computes it for the pre-check in `getZipsInBoundary`. -/
def polyBounds (poly : List (ℚ × ℚ)) : (ℚ × ℚ) × (ℚ × ℚ) :=
  match poly with
  | [] => ((0, 0), (0, 0))
  | v :: vs =>
    vs.foldl
      (fun b w => ((min b.1.1 w.1, min b.1.2 w.2), (max b.2.1 w.1, max b.2.2 w.2)))
      ((v.1, v.2), (v.1, v.2))

/-- Embeds `bounds.contains(point)`: inclusive containment in the box. -/
def boundsContains (b : (ℚ × ℚ) × (ℚ × ℚ)) (p : ℚ × ℚ) : Bool :=
  decide (b.1.1 ≤ p.1) && decide (p.1 ≤ b.2.1) &&
    decide (b.1.2 ≤ p.2) && decide (p.2 ≤ b.2.2)

/-- Embeds `getZipsInBoundary` (lines 700-723), polygon branch: filter the zip
centroids by the bounding-box pre-check and then the precise ray-casting
test. -/
def getZipsInBoundary (zips : List (ℚ × ℚ)) (poly : List (ℚ × ℚ)) :
    List (ℚ × ℚ) :=
  zips.filter fun z => boundsContains (polyBounds poly) z && isPointInPolygon z poly

/-- Twice the signed area of triangle `p q r`; the standard orientation
test used to state that two segments cross properly. -/
def orient (p q r : ℚ × ℚ) : ℚ :=
  (q.1 - p.1) * (r.2 - p.2) - (q.2 - p.2) * (r.1 - p.1)

/-- Segments `a-b` and `c-d` cross in their interiors. -/
def properCross (a b c d : ℚ × ℚ) : Bool :=
  decide (orient a b c * orient a b d < 0) &&
    decide (orient c d a * orient c d b < 0)

/-- The closed edge cycle of a polygon: consecutive vertex pairs plus the
closing edge. -/
def polygonEdges (poly : List (ℚ × ℚ)) : List ((ℚ × ℚ) × (ℚ × ℚ)) :=
  poly.zip (poly.rotate 1)

/-- A polygon is self-intersecting when two non-adjacent edges of its
closed edge cycle cross properly. -/
def selfIntersecting (poly : List (ℚ × ℚ)) : Bool :=
  let es := polygonEdges poly
  let n := es.length
  (List.range n).any fun i =>
    (List.range n).any fun j =>
      decide (i + 2 ≤ j) && !(decide (i = 0) && decide (j = n - 1)) &&
        properCross (es.getD i ((0, 0), (0, 0))).1 (es.getD i ((0, 0), (0, 0))).2
          (es.getD j ((0, 0), (0, 0))).1 (es.getD j ((0, 0), (0, 0))).2

/-! ## Helper lemmas -/

lemma getD_mem_of_lt {α : Type} (l : List α) (d : α) {n : ℕ} (h : n < l.length) :
    l.getD n d ∈ l := by
  rw [List.getD_eq_getElem l d h]
  exact List.getElem_mem h

lemma sorted_getD_zero_le {t : List ℚ} (hs : t.Sorted (· ≤ ·)) {x : ℚ}
    (hx : x ∈ t) : t.getD 0 0 ≤ x := by
  cases t with
  | nil => cases hx
  | cons a l =>
    rcases List.mem_cons.mp hx with rfl | hx1
    · simp
    · simpa using List.rel_of_sorted_cons hs x hx1

lemma sorted_le_getD_last :
    ∀ (t : List ℚ), t.Sorted (· ≤ ·) → ∀ x ∈ t, x ≤ t.getD (t.length - 1) 0
  | [], _, _, hx => absurd hx (by simp)
  | [a], _, x, hx => by
    rcases List.mem_cons.mp hx with rfl | hx1
    · simp
    · cases hx1
  | a :: b :: m, hs, x, hx => by
    have h1 : (a :: b :: m).length - 1 = m.length + 1 := by simp
    rw [h1, List.getD_cons_succ]
    have h2 : (b :: m).length - 1 = m.length := by simp
    rcases List.mem_cons.mp hx with rfl | hx1
    · have hmem : (b :: m).getD m.length 0 ∈ b :: m := by
        refine getD_mem_of_lt (b :: m) 0 ?_
        simp
      exact List.rel_of_sorted_cons hs _ hmem
    · have hrec := sorted_le_getD_last (b :: m) hs.of_cons x hx1
      rw [h2] at hrec
      exact hrec

lemma find?_split {α : Type} (p : α → Bool) :
    ∀ l : List α, (∃ x ∈ l, p x = true) →
      ∃ a l1 l2, l.find? p = some a ∧ l = l1 ++ a :: l2 ∧ p a = true ∧
        ∀ x ∈ l1, p x = false
  | [], h => by simp at h
  | b :: l, h => by
    by_cases hb : p b = true
    · exact ⟨b, [], l, List.find?_cons_of_pos l hb, rfl, hb, by simp⟩
    · have hl : ∃ x ∈ l, p x = true := by
        rcases h with ⟨x, hx, hpx⟩
        rcases List.mem_cons.mp hx with rfl | hx1
        · exact absurd hpx hb
        · exact ⟨x, hx1, hpx⟩
      rcases find?_split p l hl with ⟨a, l1, l2, h1, h2, h3, h4⟩
      refine ⟨a, b :: l1, l2, ?_, by simp [h2], h3, ?_⟩
      · rw [List.find?_cons_of_neg l hb, h1]
      · intro x hx
        rcases List.mem_cons.mp hx with rfl | hx1
        · simp only [Bool.not_eq_true] at hb
          exact hb
        · exact h4 x hx1

lemma insertionSort_head_min :
    ∀ l : List (MonthCol × ℕ), l ≠ [] →
      ∃ a l1 l2,
        (List.insertionSort (fun a b => a.2 ≤ b.2) l).head? = some a ∧
        l = l1 ++ a :: l2 ∧ (∀ x ∈ l1, a.2 < x.2) ∧ ∀ x ∈ l2, a.2 ≤ x.2
  | [], h => absurd rfl h
  | [x], _ => ⟨x, [], [], rfl, rfl, by simp, by simp⟩
  | x :: y :: ys, _ => by
    rcases insertionSort_head_min (y :: ys) (by simp) with
      ⟨a, l1, l2, hhead, hsplit, h1, h2⟩
    obtain ⟨t, hst⟩ :
        ∃ t, List.insertionSort (fun a b => a.2 ≤ b.2) (y :: ys) = a :: t := by
      cases hseq : List.insertionSort (fun a b => a.2 ≤ b.2) (y :: ys) with
      | nil => rw [hseq] at hhead; cases hhead
      | cons c cs =>
        rw [hseq] at hhead
        simp only [List.head?_cons, Option.some.injEq] at hhead
        exact ⟨cs, by rw [hhead]⟩
    have hstep : List.insertionSort (fun a b => a.2 ≤ b.2) (x :: y :: ys) =
        List.orderedInsert (fun a b => a.2 ≤ b.2) x (a :: t) := by
      rw [List.insertionSort, hst]
    by_cases hxa : x.2 ≤ a.2
    · refine ⟨x, [], y :: ys, ?_, rfl, by simp, ?_⟩
      · rw [hstep, List.orderedInsert, if_pos hxa]
        rfl
      · intro z hz
        have hz1 : z ∈ l1 ++ a :: l2 := hsplit ▸ hz
        rcases List.mem_append.mp hz1 with hzl | hzr
        · exact le_trans hxa (le_of_lt (h1 z hzl))
        · rcases List.mem_cons.mp hzr with rfl | hz2
          · exact hxa
          · exact le_trans hxa (h2 z hz2)
    · refine ⟨a, x :: l1, l2, ?_, by simp [hsplit], ?_, h2⟩
      · rw [hstep, List.orderedInsert, if_neg hxa]
        rfl
      · intro z hz
        rcases List.mem_cons.mp hz with rfl | hz1
        · omega
        · exact h1 z hz1

lemma mem_pipeline {rows : List Region} {keep : FloatVal → Bool}
    {x : Region × FloatVal}
    (hx : x ∈ ((dropna rows).map fun y => (y.1, price_change_pct y.2.1 y.2.2)).filter
      fun y => keep y.2) :
    ∃ c p, x.1.current = some c ∧ x.1.prior = some p ∧
      x.2 = price_change_pct c p ∧ keep x.2 = true := by
  rcases List.mem_filter.mp hx with ⟨hmem, hkeep⟩
  rcases List.mem_map.mp hmem with ⟨y, hy, hxy⟩
  rcases List.mem_filterMap.mp hy with ⟨r, _, hr2⟩
  cases hc : r.current with
  | none => rw [hc] at hr2; cases hr2
  | some c =>
    cases hp : r.prior with
    | none => rw [hc, hp] at hr2; cases hr2
    | some p =>
      rw [hc, hp] at hr2
      simp only [Option.some.injEq] at hr2
      subst hr2
      subst hxy
      exact ⟨c, p, hc, hp, rfl, hkeep⟩

lemma price_change_pct_zero_prior_dropped (c : ℚ) :
    yoyKeep (price_change_pct c 0) = false ∧
      sophKeep (price_change_pct c 0) = false := by
  unfold price_change_pct
  rw [if_pos rfl]
  split_ifs <;> simp [yoyKeep, sophKeep]

lemma bne_comm_bool (x y : Bool) : (x != y) = (y != x) := by
  cases x <;> cases y <;> rfl

lemma edgeCross_symm (p a b : ℚ × ℚ) : edgeCross p b a = edgeCross p a b := by
  unfold edgeCross
  by_cases h : a.2 = b.2
  · rw [h, bne_self_eq_false]
    simp
  · have hab : a.2 - b.2 ≠ 0 := sub_ne_zero.mpr h
    have hba : b.2 - a.2 ≠ 0 := sub_ne_zero.mpr (Ne.symm h)
    have key : (a.1 - b.1) * (p.2 - b.2) / (a.2 - b.2) + b.1
        = (b.1 - a.1) * (p.2 - a.2) / (b.2 - a.2) + a.1 := by
      field_simp
      ring
    rw [key, bne_comm_bool]

/-! ## Claim theorems -/

/-- C1: for every list `S` of percent-change values with `|S| ≥ 5`, the
quantile engine `calculateQuintiles` returns the four breakpoints obtained
by sorting `S` ascending and taking the elements at zero-based indices
`⌊0.2·n⌋`, `⌊0.4·n⌋`, `⌊0.6·n⌋`, `⌊0.8·n⌋` where `n = |S|` (the sorted
order is characterised as any sorted permutation `t` of `S`). -/
theorem calculateQuintiles_rank_breakpoints (S t : List ℚ) (h5 : 5 ≤ S.length)
    (hperm : S.Perm t) (hsort : t.Sorted (· ≤ ·)) :
    calculateQuintiles S =
      [t.getD (S.length / 5) 0, t.getD (2 * S.length / 5) 0,
       t.getD (3 * S.length / 5) 0, t.getD (4 * S.length / 5) 0] := by
  have hs : List.insertionSort (· ≤ ·) S = t :=
    List.eq_of_perm_of_sorted ((List.perm_insertionSort _ S).trans hperm)
      (List.sorted_insertionSort _ S) hsort
  have hlen : t.length = S.length := hperm.length_eq.symm
  unfold calculateQuintiles quintilesFromSorted
  rw [hs, hlen, if_neg (by omega)]

/-- Witness for C1 at the example of the spec:
`S = [-10, -5, 0, 5, 10, 15, 20, 25, 30, 35]` yields `[0, 10, 20, 30]`. -/
theorem calculateQuintiles_rank_breakpoints_witness :
    5 ≤ ([-10, -5, 0, 5, 10, 15, 20, 25, 30, 35] : List ℚ).length ∧
    ([-10, -5, 0, 5, 10, 15, 20, 25, 30, 35] : List ℚ).Sorted (· ≤ ·) ∧
    calculateQuintiles [-10, -5, 0, 5, 10, 15, 20, 25, 30, 35] =
      [0, 10, 20, 30] :=
  ⟨by simp, by decide,
    (calculateQuintiles_rank_breakpoints _ _ (by simp) (List.Perm.refl _)
      (by decide)).trans (by norm_num)⟩

/-- C2: for every list `S` with `1 < |S| < 5`, `calculateQuintiles` returns
breakpoints linearly interpolated between `min S` and `max S` at
20/40/60/80 percent of the range, and `updateLocalQuintiles` reports the
small-sample flag as `true` for such `S`. -/
theorem calculateQuintiles_small_sample (g S : List ℚ) (mn mx : ℚ)
    (h1 : 1 < S.length) (h2 : S.length < 5)
    (hmn : mn ∈ S) (hmnle : ∀ x ∈ S, mn ≤ x)
    (hmx : mx ∈ S) (hlemx : ∀ x ∈ S, x ≤ mx) :
    calculateQuintiles S =
      [mn + (mx - mn) * (2/10), mn + (mx - mn) * (4/10),
       mn + (mx - mn) * (6/10), mn + (mx - mn) * (8/10)] ∧
    updateLocalQuintiles g S = (calculateQuintiles S, true) := by
  have hperm : (List.insertionSort (· ≤ ·) S).Perm S := List.perm_insertionSort _ S
  have hsort : (List.insertionSort (· ≤ ·) S).Sorted (· ≤ ·) :=
    List.sorted_insertionSort _ S
  have hlen : (List.insertionSort (· ≤ ·) S).length = S.length := hperm.length_eq
  have hmn1 : (List.insertionSort (· ≤ ·) S).getD 0 0 = mn := by
    apply le_antisymm
    · exact sorted_getD_zero_le hsort (hperm.mem_iff.mpr hmn)
    · refine hmnle _ (hperm.subset (getD_mem_of_lt _ _ ?_))
      omega
  have hmx1 : (List.insertionSort (· ≤ ·) S).getD
      ((List.insertionSort (· ≤ ·) S).length - 1) 0 = mx := by
    apply le_antisymm
    · refine hlemx _ (hperm.subset (getD_mem_of_lt _ _ ?_))
      omega
    · exact sorted_le_getD_last _ hsort mx (hperm.mem_iff.mpr hmx)
  constructor
  · unfold calculateQuintiles quintilesFromSorted
    rw [if_pos (by omega), hmn1, hmx1]
  · unfold updateLocalQuintiles
    rw [if_neg (by omega)]
    simp [h2]

/-- Witness for C2 at the example of the spec: `S = [0, 10, 50]` yields
`[10, 20, 30, 40]` and the small-sample flag is set. -/
theorem calculateQuintiles_small_sample_witness :
    1 < ([0, 10, 50] : List ℚ).length ∧ ([0, 10, 50] : List ℚ).length < 5 ∧
    calculateQuintiles [0, 10, 50] = [10, 20, 30, 40] ∧
    updateLocalQuintiles [1, 2, 3, 4] [0, 10, 50] =
      (calculateQuintiles [0, 10, 50], true) := by
  have h := calculateQuintiles_small_sample [1, 2, 3, 4] [0, 10, 50] 0 50
    (by simp) (by simp) (by decide) (by decide) (by decide) (by decide)
  exact ⟨by simp, by simp, h.1.trans (by norm_num), h.2⟩

/-- C8: the quantile engine is a pure, order-independent function of the
multiset of values: permuting the input list leaves the breakpoints
unchanged. -/
theorem calculateQuintiles_perm_invariant (S T : List ℚ) (h : S.Perm T) :
    calculateQuintiles S = calculateQuintiles T := by
  unfold calculateQuintiles
  congr 1
  exact List.eq_of_perm_of_sorted
    ((List.perm_insertionSort _ S).trans (h.trans (List.perm_insertionSort _ T).symm))
    (List.sorted_insertionSort _ S) (List.sorted_insertionSort _ T)

/-- Witness for C8 at a concrete permutation pair. -/
theorem calculateQuintiles_perm_invariant_witness :
    ([2, 1, 3] : List ℚ).Perm [3, 2, 1] ∧
    calculateQuintiles [2, 1, 3] = calculateQuintiles [3, 2, 1] :=
  ⟨by decide, calculateQuintiles_perm_invariant _ _ (by decide)⟩

/-- C5: for every region whose current and prior values are both present
and whose prior value is positive, the computed year-over-year metric is
the finite value `(current − prior) / prior × 100`. -/
theorem price_change_pct_formula (c p : ℚ) (hp : 0 < p) :
    price_change_pct c p = FloatVal.val ((c - p) / p * 100) := by
  unfold price_change_pct
  rw [if_neg (ne_of_gt hp)]

/-- Witness for C5 at the two examples of the spec:
`percent_change(120000, 100000) = 20` and `percent_change(80000, 100000)
= −20`. -/
theorem price_change_pct_formula_witness :
    (0 : ℚ) < 100000 ∧
    price_change_pct 120000 100000 = FloatVal.val 20 ∧
    price_change_pct 80000 100000 = FloatVal.val (-20) :=
  ⟨by norm_num,
    (price_change_pct_formula 120000 100000 (by norm_num)).trans (by norm_num),
    (price_change_pct_formula 80000 100000 (by norm_num)).trans (by norm_num)⟩

/-- C6 counterexample: the claim says a region whose prior value is `≤ 0`
is always excluded, but a region with prior `−100` and current `−120` has
computed change `(−120 − (−100)) / (−100) × 100 = 20` and is RETAINED by
both year-over-year pipelines. -/
theorem prior_nonpositive_region_retained :
    (-100 : ℚ) ≤ 0 ∧
    yoyTable [⟨"neg", some (-120), some (-100)⟩] =
      [(⟨"neg", some (-120), some (-100)⟩, FloatVal.val 20)] ∧
    sophTable [⟨"neg", some (-120), some (-100)⟩] =
      [(⟨"neg", some (-120), some (-100)⟩, FloatVal.val 20)] := by
  refine ⟨by norm_num, ?_, ?_⟩
  · norm_num [yoyTable, dropna, price_change_pct, yoyKeep, List.filterMap]
  · norm_num [sophTable, dropna, price_change_pct, sophKeep, List.filterMap]

/-- C6 amended: every row of either year-over-year result table has both
endpoint values present and a prior value different from zero — a missing
endpoint is removed by `dropna`, and a zero prior yields a non-finite
change that fails the outlier mask.  (A strictly negative prior is NOT
excluded by itself.) -/
theorem region_excluded_when_missing_or_zero_prior (rows : List Region)
    (x : Region × FloatVal) (hx : x ∈ yoyTable rows ∨ x ∈ sophTable rows) :
    x.1.current ≠ none ∧ x.1.prior ≠ none ∧ x.1.prior ≠ some 0 := by
  have hand : ∃ c p, x.1.current = some c ∧ x.1.prior = some p ∧
      x.2 = price_change_pct c p ∧
      (yoyKeep x.2 = true ∨ sophKeep x.2 = true) := by
    rcases hx with hx | hx
    · rcases mem_pipeline hx with ⟨c, p, h1, h2, h3, h4⟩
      exact ⟨c, p, h1, h2, h3, Or.inl h4⟩
    · rcases mem_pipeline hx with ⟨c, p, h1, h2, h3, h4⟩
      exact ⟨c, p, h1, h2, h3, Or.inr h4⟩
  rcases hand with ⟨c, p, h1, h2, h3, hk⟩
  refine ⟨by simp [h1], by simp [h2], ?_⟩
  rw [h2]
  intro hsome
  have hp0 : p = 0 := by
    simpa using hsome
  subst hp0
  rw [h3] at hk
  rcases price_change_pct_zero_prior_dropped c with ⟨hz1, hz2⟩
  rcases hk with hk | hk
  · rw [hz1] at hk
    cases hk
  · rw [hz2] at hk
    cases hk

/-- Witness for the amended C6: a retained row indeed has present
endpoints and a nonzero prior. -/
theorem region_excluded_when_missing_or_zero_prior_witness :
    ((⟨"a", some 120000, some 100000⟩, FloatVal.val 20) ∈
      yoyTable [⟨"a", some 120000, some 100000⟩] ∨
     (⟨"a", some 120000, some 100000⟩, FloatVal.val 20) ∈
      sophTable [⟨"a", some 120000, some 100000⟩]) ∧
    ((some 120000 : Option ℚ) ≠ none ∧ (some 100000 : Option ℚ) ≠ none ∧
      (some 100000 : Option ℚ) ≠ some 0) := by
  have hmem : (⟨"a", some 120000, some 100000⟩, FloatVal.val 20) ∈
      yoyTable [⟨"a", some 120000, some 100000⟩] := by
    norm_num [yoyTable, dropna, price_change_pct, yoyKeep, List.filterMap]
  exact ⟨Or.inl hmem,
    region_excluded_when_missing_or_zero_prior _ _ (Or.inl hmem)⟩

/-- C7 counterexample: the claim says a change of exactly −50 percent is
retained, but `create_yoy_map.py` uses the strict mask
`(yoy_change > -50) & (yoy_change < 100)` and DISCARDS it, while
`create_sophisticated_map.py` retains it. -/
theorem yoy_band_boundary_discarded :
    price_change_pct 50 100 = FloatVal.val (-50) ∧
    yoyTable [⟨"edge", some 50, some 100⟩] = [] ∧
    sophTable [⟨"edge", some 50, some 100⟩] =
      [(⟨"edge", some 50, some 100⟩, FloatVal.val (-50))] := by
  refine ⟨by norm_num [price_change_pct], ?_, ?_⟩
  · norm_num [yoyTable, dropna, price_change_pct, yoyKeep, List.filterMap]
  · norm_num [sophTable, dropna, price_change_pct, sophKeep, List.filterMap]

/-- C7 amended: a region with a computed metric is retained exactly inside
the configured band — inclusively (`−50 ≤ pct ≤ 100`) in
`create_sophisticated_map.py`, strictly (`−50 < pct < 100`) in
`create_yoy_map.py` (so exactly −50 or exactly +100 is discarded there),
and inclusively (`10000 ≤ price ≤ 10000000`) in `create_price_levels.py`. -/
theorem outlier_band_retention (rows : List Region) (r : Region) (c p : ℚ)
    (hr : r ∈ rows) (hc : r.current = some c) (hp : r.prior = some p)
    (hp0 : p ≠ 0) :
    ((r, FloatVal.val ((c - p) / p * 100)) ∈ sophTable rows ↔
      -50 ≤ (c - p) / p * 100 ∧ (c - p) / p * 100 ≤ 100) ∧
    ((r, FloatVal.val ((c - p) / p * 100)) ∈ yoyTable rows ↔
      -50 < (c - p) / p * 100 ∧ (c - p) / p * 100 < 100) ∧
    ((r, c) ∈ priceTable rows ↔ 10000 ≤ c ∧ c ≤ 10000000) := by
  have hval : price_change_pct c p = FloatVal.val ((c - p) / p * 100) := by
    unfold price_change_pct
    rw [if_neg hp0]
  have hmemmap : (r, FloatVal.val ((c - p) / p * 100)) ∈
      (dropna rows).map fun y => (y.1, price_change_pct y.2.1 y.2.2) := by
    refine List.mem_map.mpr ⟨(r, c, p), ?_, by simp [hval]⟩
    exact List.mem_filterMap.mpr ⟨r, hr, by simp [hc, hp]⟩
  have hmemprice : (r, c) ∈ rows.filterMap fun s => s.current.map fun v => (s, v) :=
    List.mem_filterMap.mpr ⟨r, hr, by simp [hc]⟩
  refine ⟨⟨?_, ?_⟩, ⟨?_, ?_⟩, ?_, ?_⟩
  · intro hmem
    have hkeep := (List.mem_filter.mp hmem).2
    simpa [sophKeep] using hkeep
  · intro hband
    exact List.mem_filter.mpr ⟨hmemmap, by simp [sophKeep, hband.1, hband.2]⟩
  · intro hmem
    have hkeep := (List.mem_filter.mp hmem).2
    simpa [yoyKeep] using hkeep
  · intro hband
    exact List.mem_filter.mpr ⟨hmemmap, by simp [yoyKeep, hband.1, hband.2]⟩
  · intro hmem
    have hkeep := (List.mem_filter.mp hmem).2
    simpa [priceKeep] using hkeep
  · intro hband
    exact List.mem_filter.mpr ⟨hmemprice, by simp [priceKeep, hband.1, hband.2]⟩

/-- Witness for the amended C7 at a region with a 20 percent change and a
120000 price level, retained by all three pipelines. -/
theorem outlier_band_retention_witness :
    ((⟨"w", some 120000, some 100000⟩,
        FloatVal.val ((120000 - 100000) / 100000 * 100)) ∈
      sophTable [⟨"w", some 120000, some 100000⟩]) ∧
    ((⟨"w", some 120000, some 100000⟩,
        FloatVal.val ((120000 - 100000) / 100000 * 100)) ∈
      yoyTable [⟨"w", some 120000, some 100000⟩]) ∧
    ((⟨"w", some 120000, some 100000⟩, (120000 : ℚ)) ∈
      priceTable [⟨"w", some 120000, some 100000⟩]) := by
  have h := outlier_band_retention [⟨"w", some 120000, some 100000⟩]
    ⟨"w", some 120000, some 100000⟩ 120000 100000 (by simp) rfl rfl (by norm_num)
  exact ⟨h.1.mpr (by norm_num), h.2.1.mpr (by norm_num), h.2.2.mpr (by norm_num)⟩

/-- Columns used to witness C3: an exact prior-year month match exists. -/
def exactCols : List MonthCol :=
  [⟨"2023-05-31", some (2023, 5)⟩, ⟨"2023-06-30", some (2023, 6)⟩,
   ⟨"2024-06-30", some (2024, 6)⟩]

/-- Columns used to witness C4: no exact match, two equidistant candidates
in the prior year. -/
def fallbackCols : List MonthCol :=
  [⟨"2023-04-30", some (2023, 4)⟩, ⟨"2023-08-31", some (2023, 8)⟩,
   ⟨"2024-06-30", some (2024, 6)⟩]

/-- C3: whenever the month-column list contains a column whose
(year, month) equals (target year − 1, target month), both resolvers
return the first such column in input order. -/
theorem resolveYearAgo_exact_match (cols : List MonthCol) (ty tm : Int)
    (h : ∃ c ∈ cols, isYearAgoExact ty tm c = true) :
    ∃ c l1 l2,
      CreateYoyMap.resolveYearAgo cols ty tm = some c ∧
      CreateSophisticatedMap.resolveYearAgo cols ty tm = some c ∧
      cols = l1 ++ c :: l2 ∧ isYearAgoExact ty tm c = true ∧
      ∀ x ∈ l1, isYearAgoExact ty tm x = false := by
  rcases find?_split (isYearAgoExact ty tm) cols h with ⟨a, l1, l2, h1, h2, h3, h4⟩
  refine ⟨a, l1, l2, ?_, ?_, h2, h3, h4⟩
  · unfold CreateYoyMap.resolveYearAgo CreateYoyMap.findYearAgoExact
    rw [h1]
  · unfold CreateSophisticatedMap.resolveYearAgo CreateSophisticatedMap.findYearAgoExact
    rw [h1]

/-- Witness for C3 on `exactCols` with target (2024, 6): the resolver
returns the 2023-06 column. -/
theorem resolveYearAgo_exact_match_witness :
    (∃ c ∈ exactCols, isYearAgoExact 2023 6 c = true) ∧
    (∃ c l1 l2,
      CreateYoyMap.resolveYearAgo exactCols 2023 6 = some c ∧
      CreateSophisticatedMap.resolveYearAgo exactCols 2023 6 = some c ∧
      exactCols = l1 ++ c :: l2 ∧ isYearAgoExact 2023 6 c = true ∧
      ∀ x ∈ l1, isYearAgoExact 2023 6 x = false) :=
  ⟨by decide, resolveYearAgo_exact_match exactCols 2023 6 (by decide)⟩

/-- C4: when no exact prior-year month match exists but the prior year is
represented, both resolvers return a prior-year column whose month
distance to the target month is minimal, and among equidistant candidates
the one occurring earliest in input order (the candidate list preserves
input order, and the stable sort keeps the first minimum in front). -/
theorem resolveYearAgo_closest_fallback (cols : List MonthCol) (ty tm : Int)
    (hno : ∀ c ∈ cols, isYearAgoExact ty tm c = false)
    (hy : ∃ c ∈ cols, ∃ m : Int, c.date = some (ty, m)) :
    ∃ c k l1 l2,
      CreateYoyMap.resolveYearAgo cols ty tm = some c ∧
      CreateSophisticatedMap.resolveYearAgo cols ty tm = some c ∧
      CreateYoyMap.yearAgoCandidates cols ty tm = l1 ++ (c, k) :: l2 ∧
      (∀ x ∈ l1, k < x.2) ∧ (∀ x ∈ l2, k ≤ x.2) ∧
      ∃ m : Int, c.date = some (ty, m) ∧ k = (m - tm).natAbs := by
  have hfind : cols.find? (isYearAgoExact ty tm) = none :=
    List.find?_eq_none.mpr fun x hx => by simp [hno x hx]
  have hne : CreateYoyMap.yearAgoCandidates cols ty tm ≠ [] := by
    rcases hy with ⟨c, hcmem, m, hm⟩
    refine List.ne_nil_of_mem (a := (c, (m - tm).natAbs)) ?_
    exact List.mem_filterMap.mpr ⟨c, hcmem, by simp [hm]⟩
  rcases insertionSort_head_min (CreateYoyMap.yearAgoCandidates cols ty tm) hne
    with ⟨a, l1, l2, hhead, hsplit, h1, h2⟩
  obtain ⟨rest, hseq⟩ :
      ∃ rest, List.insertionSort (fun a b => a.2 ≤ b.2)
        (CreateYoyMap.yearAgoCandidates cols ty tm) = a :: rest := by
    cases hq : List.insertionSort (fun a b => a.2 ≤ b.2)
        (CreateYoyMap.yearAgoCandidates cols ty tm) with
    | nil => rw [hq] at hhead; cases hhead
    | cons b bs =>
      rw [hq] at hhead
      simp only [List.head?_cons, Option.some.injEq] at hhead
      exact ⟨bs, by rw [hhead]⟩
  have hres : CreateYoyMap.resolveYearAgo cols ty tm = some a.1 := by
    unfold CreateYoyMap.resolveYearAgo CreateYoyMap.findYearAgoExact
    rw [hfind, hseq]
  have hagree : CreateSophisticatedMap.resolveYearAgo cols ty tm =
      CreateYoyMap.resolveYearAgo cols ty tm := rfl
  have hamem : a ∈ CreateYoyMap.yearAgoCandidates cols ty tm := by
    rw [hsplit]
    exact List.mem_append_right _ (List.mem_cons_self _ _)
  rcases List.mem_filterMap.mp hamem with ⟨c, _, hc2⟩
  have hprov : ∃ m : Int, a.1.date = some (ty, m) ∧ a.2 = (m - tm).natAbs := by
    cases hd : c.date with
    | none => rw [hd] at hc2; cases hc2
    | some ym =>
      obtain ⟨y, m⟩ := ym
      rw [hd] at hc2
      by_cases hyt : (y == ty) = true
      · simp only [hyt, if_true, Option.some.injEq] at hc2
        have hy : y = ty := eq_of_beq hyt
        subst hc2
        exact ⟨m, by rw [hd, hy], rfl⟩
      · simp only [hyt, if_false] at hc2
        cases hc2
  refine ⟨a.1, a.2, l1, l2, hres, by rw [hagree, hres], ?_, h1, h2, hprov⟩
  rw [Prod.mk.eta]
  exact hsplit

/-- Witness for C4 on `fallbackCols` with target (2024, 6): months 4 and 8
of 2023 are both at distance 2, and the resolver returns the earlier
column 2023-04-30. -/
theorem resolveYearAgo_closest_fallback_witness :
    (∀ c ∈ fallbackCols, isYearAgoExact 2023 6 c = false) ∧
    (∃ c ∈ fallbackCols, ∃ m : Int, c.date = some (2023, m)) ∧
    (∃ c k l1 l2,
      CreateYoyMap.resolveYearAgo fallbackCols 2023 6 = some c ∧
      CreateSophisticatedMap.resolveYearAgo fallbackCols 2023 6 = some c ∧
      CreateYoyMap.yearAgoCandidates fallbackCols 2023 6 = l1 ++ (c, k) :: l2 ∧
      (∀ x ∈ l1, k < x.2) ∧ (∀ x ∈ l2, k ≤ x.2) ∧
      ∃ m : Int, c.date = some (2023, m) ∧ k = (m - 6).natAbs) :=
  ⟨by decide, ⟨⟨"2023-04-30", some (2023, 4)⟩, by decide, 4, rfl⟩,
    resolveYearAgo_closest_fallback fallbackCols 2023 6 (by decide)
      ⟨⟨"2023-04-30", some (2023, 4)⟩, by decide, 4, rfl⟩⟩

/-- C10: the two year-over-year scripts resolve the comparison column
identically — the embedded resolvers, traced independently from
`create_yoy_map.py` and from `create_sophisticated_map.py`, agree on every
input, both on the core search given the target (year, month) and on the
full resolution starting from the column list; in particular one succeeds
exactly when the other does. -/
theorem yearAgo_resolution_scripts_agree (cols : List MonthCol) (ty tm : Int) :
    CreateYoyMap.resolveYearAgo cols ty tm =
      CreateSophisticatedMap.resolveYearAgo cols ty tm ∧
    CreateYoyMap.yearAgoFromColumns cols =
      CreateSophisticatedMap.yearAgoFromColumns cols ∧
    ((CreateYoyMap.yearAgoFromColumns cols).isSome ↔
      (CreateSophisticatedMap.yearAgoFromColumns cols).isSome) :=
  ⟨rfl, rfl, Iff.rfl⟩

/-- C9 counterexample: the bow-tie polygon (0,0), (2,2), (2,0), (0,2) is
self-intersecting (its first and third edges cross properly), yet the
membership test reports the point (1/2, 1) as CONTAINED, and the boundary
selection is nonempty — not the empty selection the claim requires. -/
theorem selfIntersecting_polygon_contains_point :
    selfIntersecting [(0, 0), (2, 2), (2, 0), (0, 2)] = true ∧
    isPointInPolygon (1/2, 1) [(0, 0), (2, 2), (2, 0), (0, 2)] = true ∧
    getZipsInBoundary [(1/2, 1)] [(0, 0), (2, 2), (2, 0), (0, 2)] =
      [(1/2, 1)] := by
  refine ⟨?_, ?_, ?_⟩
  · norm_num [selfIntersecting, polygonEdges, properCross, orient,
      List.range_succ, List.rotate]
  · norm_num [isPointInPolygon, edgeCross, List.range_succ]
  · norm_num [getZipsInBoundary, polyBounds, boundsContains, isPointInPolygon,
      edgeCross, List.range_succ]

/-- C9 amended: a polygon with fewer than three vertices never contains
any point and always yields an empty boundary selection; a
self-intersecting polygon raises no error but is evaluated by the even-odd
rule, which can report containment. -/
theorem degenerate_polygon_empty_selection (p : ℚ × ℚ) (zips : List (ℚ × ℚ))
    (poly : List (ℚ × ℚ)) (h : poly.length < 3) :
    isPointInPolygon p poly = false ∧ getZipsInBoundary zips poly = [] := by
  have hfalse : ∀ q : ℚ × ℚ, isPointInPolygon q poly = false := by
    intro q
    match poly, h with
    | [], _ => rfl
    | [a], _ =>
      simp [isPointInPolygon, edgeCross, List.range_succ]
    | [a, b], _ =>
      have hsym := edgeCross_symm q a b
      simp only [isPointInPolygon, List.length_cons, List.length_nil,
        List.range_succ, List.range_zero, List.nil_append, List.cons_append,
        List.foldl_cons, List.foldl_nil, List.getD_cons_zero, List.getD_cons_succ]
      norm_num
      rw [hsym]
      cases hc : edgeCross q a b <;> simp
  refine ⟨hfalse p, ?_⟩
  unfold getZipsInBoundary
  refine List.filter_eq_nil_iff.mpr fun z _ => ?_
  simp [hfalse z]

/-- Witness for the amended C9 on a two-vertex polygon. -/
theorem degenerate_polygon_empty_selection_witness :
    ([(0, 0), (10, 10)] : List (ℚ × ℚ)).length < 3 ∧
    isPointInPolygon (5, 5) [(0, 0), (10, 10)] = false ∧
    getZipsInBoundary [(5, 5)] [(0, 0), (10, 10)] = [] := by
  have h := degenerate_polygon_empty_selection (5, 5) [(5, 5)]
    [(0, 0), (10, 10)] (by simp)
  exact ⟨by simp, h.1, h.2⟩

end PriceMaps
